import Mathlib

/-!
A shallow embedding of the microphone start/stop controller implemented in
`src/site/content/en/patterns/media/microphone-process/assets/script.js`.

The script wires two buttons to handlers:

* the start handler awaits `getUserMedia({audio: true})`, assigns the result
  to the module-level variable `stream`, builds an audio graph
  (source → worklet processor → destination) after awaiting
  `audioWorklet.addModule("processor.js")`, then sets
  `stopMicrophoneButton.disabled = false` and logs a status message;
* the stop handler calls `stream.getTracks().forEach(track => track.stop())`
  and logs a status message.

The embedding makes the host environment explicit: the outcome of the
permission request and of the module load are inputs to the start handler,
hardware tracks live in a registry so that a track stays live when the
only stream referencing it is dropped, and an uncaught error is returned
as an `Option JsError` (the handlers contain no try/catch, so any error
escapes to the host's default handler).
-/

/-- A hardware media track as seen by the host environment. `track.stop()`
sets the `stopped` flag; the object survives even if no `MediaStream`
variable references it anymore. -/
structure Track where
  id : Nat
  stopped : Bool
  deriving DecidableEq, Repr

/-- A `MediaStream` handle: `getTracks()` returns the tracks it owns,
identified here by their ids in the hardware registry. -/
structure MediaStream where
  trackIds : List Nat
  deriving DecidableEq, Repr

/-- Errors that can escape the handlers uncaught: `NotAllowedError`
(permission denied) and `NotFoundError` (no device) from `getUserMedia`,
`abortError` standing for a failed `addModule`, and `typeError` for
calling `getTracks` on the undefined `stream` variable. -/
inductive JsError where
  | notAllowedError
  | notFoundError
  | abortError
  | typeError
  deriving DecidableEq, Repr

/-- Observable steps of one run of the start handler, in the order the
script performs them. -/
inductive Step where
  | permissionResolved
  | moduleLoaded
  | graphConnect
  | stopControlEnabled
  | logMessage (msg : String)
  | raised (e : JsError)
  deriving DecidableEq, Repr

/-- The mutable state the script touches: the module-level `stream`
variable (`let stream;` starts it undefined, hence `Option`), the hardware
track registry, the `disabled` property of the stop button, the messages
emitted through `log`, and whether the audio graph has been connected. -/
structure ControllerState where
  stream : Option MediaStream
  hw : List Track
  stopDisabled : Bool
  messages : List String
  graphConnected : Bool
  deriving DecidableEq, Repr

/-- Modelled from the spec: the pattern's HTML page is not under `src/`;
per the spec the stop control starts out disabled and the controller
starts in `Idle` with no stream (`let stream;`), nothing logged and no
graph connected. -/
def initState : ControllerState :=
  { stream := none, hw := [], stopDisabled := true, messages := [],
    graphConnected := false }

/-- The status string logged by the start handler. -/
def startMessage : String := "Your microphone audio is being used."

/-- The status string logged by the stop handler. -/
def stopMessage : String := "Your microphone audio is not used anymore."

/-- Is a track with this id live (present and not stopped) in the
hardware registry? -/
def trackLive (hw : List Track) (id : Nat) : Bool :=
  hw.any fun t => t.id == id && !t.stopped

/-- `stream.getTracks().forEach(track => track.stop())`: every registry
entry whose id belongs to the stream is marked stopped. -/
def stopHw (ids : List Nat) (hw : List Track) : List Track :=
  hw.map fun t => if t.id ∈ ids then { t with stopped := true } else t

/-- Result of running a handler: the state after the run, the trace of
observable steps, and the error that escaped uncaught (if any). -/
structure RunResult where
  state : ControllerState
  trace : List Step
  err : Option JsError
  deriving Repr

/-- The start handler. `gum` is the host's answer to
`getUserMedia({audio: true})` and `mod` the outcome of
`audioWorklet.addModule("processor.js")`. On grant the hardware allocates
the stream's tracks live and the assignment `stream = await getUserMedia`
happens before `addModule` is awaited, so a module-load failure leaves the
new stream assigned. Only the success path connects the graph, enables the
stop control and logs. -/
def startRun (gum : Except JsError MediaStream) (mod : Except JsError Unit)
    (st : ControllerState) : RunResult :=
  match gum with
  | .error e => ⟨st, [.raised e], some e⟩
  | .ok s =>
    let st1 : ControllerState :=
      { st with stream := some s,
                hw := st.hw ++ s.trackIds.map fun id => ⟨id, false⟩ }
    match mod with
    | .error e => ⟨st1, [.permissionResolved, .raised e], some e⟩
    | .ok _ =>
      let st2 : ControllerState :=
        { st1 with graphConnected := true, stopDisabled := false,
                   messages := st1.messages ++ [startMessage] }
      ⟨st2, [.permissionResolved, .moduleLoaded, .graphConnect,
             .stopControlEnabled, .logMessage startMessage], none⟩

/-- The stop handler: `stream.getTracks()` on an undefined `stream`
raises a `TypeError` before anything else runs; otherwise every track of
the stream is stopped and the status message is logged. The `stream`
variable itself is never cleared and the stop control is never disabled
again. -/
def stopRun (st : ControllerState) : ControllerState × Option JsError :=
  match st.stream with
  | none => (st, some .typeError)
  | some s =>
    ({ st with hw := stopHw s.trackIds st.hw,
               messages := st.messages ++ [stopMessage] }, none)

/-- A user-visible operation: a click on the start button (with the host's
answers for the two awaits) or on the stop button. -/
inductive Op where
  | start (gum : Except JsError MediaStream) (mod : Except JsError Unit)
  | stop

/-- Apply one operation to the controller state. -/
def applyOp (st : ControllerState) (op : Op) : ControllerState × Option JsError :=
  match op with
  | .start gum mod => ((startRun gum mod st).state, (startRun gum mod st).err)
  | .stop => stopRun st

/-- Run a sequence of operations from a state, keeping only the state
(errors escape to the host's default handler and do not alter control
flow of later clicks). -/
def exec (st : ControllerState) (ops : List Op) : ControllerState :=
  ops.foldl (fun s op => (applyOp s op).1) st

/-- The spec's abstraction: the controller is `Capturing` when the shared
stream reference holds a stream at least one of whose hardware tracks is
still live, and `Idle` otherwise. -/
def isCapturing (st : ControllerState) : Bool :=
  match st.stream with
  | none => false
  | some s => s.trackIds.any fun id => trackLive st.hw id

/-- A track whose id is among the freshly allocated live entries appended
by a granted `getUserMedia` call is live in the resulting registry. -/
theorem trackLive_append_live (hw : List Track) (ids : List Nat) (id : Nat)
    (h : id ∈ ids) :
    trackLive (hw ++ ids.map fun i => ⟨i, false⟩) id = true := by
  have hmem : (⟨id, false⟩ : Track) ∈ hw ++ ids.map fun i => ⟨i, false⟩ :=
    List.mem_append_right _ (List.mem_map.mpr ⟨id, h, rfl⟩)
  simp only [trackLive, List.any_eq_true]
  exact ⟨⟨id, false⟩, hmem, by simp⟩

/-- After `stopHw ids`, no track with an id in `ids` is live. -/
theorem trackLive_stopHw (ids : List Nat) (hw : List Track) (id : Nat)
    (h : id ∈ ids) : trackLive (stopHw ids hw) id = false := by
  simp only [trackLive, stopHw, List.any_map, Function.comp,
    List.any_eq_false]
  intro t _
  by_cases hm : t.id ∈ ids
  · simp [hm]
  · have hne : t.id ≠ id := fun he => hm (he ▸ h)
    simp [hm, hne]

/-- Running the stop handler on a state whose stream reference is set
leaves the abstract state `Idle`: every track of that stream is stopped. -/
theorem stopRun_not_capturing (st : ControllerState) (s : MediaStream)
    (hs : st.stream = some s) : isCapturing (stopRun st).1 = false := by
  simp only [stopRun, hs, isCapturing, List.any_eq_false, Bool.not_eq_true]
  intro id hid
  exact trackLive_stopHw s.trackIds st.hw id hid

/-- C1: a Start whose permission request is granted and whose module load
and graph construction succeed takes the controller from Idle to
Capturing and enables the stop control. -/
theorem start_granted_enables_stop (st : ControllerState) (s : MediaStream)
    (_hidle : isCapturing st = false) (hne : s.trackIds ≠ []) :
    isCapturing (startRun (.ok s) (.ok ()) st).state = true ∧
      (startRun (.ok s) (.ok ()) st).state.stopDisabled = false := by
  refine ⟨?_, rfl⟩
  obtain ⟨id, rest, hcons⟩ := List.exists_cons_of_ne_nil hne
  simp only [startRun, isCapturing, List.any_eq_true]
  refine ⟨id, by simp [hcons], trackLive_append_live _ _ _ (by simp [hcons])⟩

theorem start_granted_enables_stop_witness :
    isCapturing (startRun (.ok ⟨[0]⟩) (.ok ()) initState).state = true ∧
      (startRun (.ok ⟨[0]⟩) (.ok ()) initState).state.stopDisabled = false :=
  start_granted_enables_stop initState ⟨[0]⟩ (by decide) (by decide)

/-- C2: a Stop invoked while Capturing transitions the controller to Idle,
raises no error, and stops every hardware track belonging to the current
session's stream. -/
theorem stop_capturing_releases_tracks (st : ControllerState) (s : MediaStream)
    (hs : st.stream = some s) (_hcap : isCapturing st = true) :
    isCapturing (stopRun st).1 = false ∧ (stopRun st).2 = none ∧
      ∀ t ∈ (stopRun st).1.hw, t.id ∈ s.trackIds → t.stopped = true := by
  refine ⟨stopRun_not_capturing st s hs, by simp [stopRun, hs], ?_⟩
  simp only [stopRun, hs]
  intro t ht hid
  simp only [stopHw, List.mem_map] at ht
  obtain ⟨t0, _, rfl⟩ := ht
  by_cases hm : t0.id ∈ s.trackIds
  · simp [hm]
  · simp only [if_neg hm] at hid
    exact absurd hid hm

theorem stop_capturing_releases_tracks_witness :
    isCapturing (stopRun (startRun (.ok ⟨[0]⟩) (.ok ()) initState).state).1 = false ∧
      (stopRun (startRun (.ok ⟨[0]⟩) (.ok ()) initState).state).2 = none ∧
      ∀ t ∈ (stopRun (startRun (.ok ⟨[0]⟩) (.ok ()) initState).state).1.hw,
        t.id ∈ MediaStream.trackIds ⟨[0]⟩ → t.stopped = true :=
  stop_capturing_releases_tracks (startRun (.ok ⟨[0]⟩) (.ok ()) initState).state
    ⟨[0]⟩ (by decide) (by decide)

/-- C3: a Stop while the shared stream reference is still undefined (no
capture session was ever established) raises the null/undefined-reference
`TypeError`, which is not caught — it is returned to the host's default
handler — and the state (messages included) is left unchanged, not
silently ignored with a log. -/
theorem stop_without_session_raises (st : ControllerState)
    (h : st.stream = none) :
    stopRun st = (st, some JsError.typeError) := by
  simp [stopRun, h]

theorem stop_without_session_raises_witness :
    stopRun initState = (initState, some JsError.typeError) :=
  stop_without_session_raises initState rfl

/-- C6: a Start whose permission request is denied leaves the controller
state untouched: still Idle and, when the stop control was disabled, it
stays disabled. -/
theorem start_denied_leaves_idle_disabled (st : ControllerState)
    (e : JsError) (mod : Except JsError Unit)
    (hidle : isCapturing st = false) (hdis : st.stopDisabled = true) :
    (startRun (.error e) mod st).state = st ∧
      isCapturing (startRun (.error e) mod st).state = false ∧
      (startRun (.error e) mod st).state.stopDisabled = true :=
  ⟨rfl, hidle, hdis⟩

theorem start_denied_leaves_idle_disabled_witness :
    (startRun (.error JsError.notAllowedError) (.ok ()) initState).state = initState ∧
      isCapturing (startRun (.error JsError.notAllowedError) (.ok ()) initState).state = false ∧
      (startRun (.error JsError.notAllowedError) (.ok ()) initState).state.stopDisabled = true :=
  start_denied_leaves_idle_disabled initState JsError.notAllowedError (.ok ())
    (by decide) (by decide)

/-- C4 counterexample: a Start that fails at module load (permission was
granted) is a failing Start after which the shared stream reference is
not left as it was — from the initial state it now holds the newly
granted stream, and the state is no longer Idle since that stream's
hardware track is live. -/
theorem start_module_failure_changes_state :
    (startRun (.ok ⟨[0]⟩) (.error JsError.abortError) initState).err
        = some JsError.abortError ∧
      (startRun (.ok ⟨[0]⟩) (.error JsError.abortError) initState).state.stream
        ≠ initState.stream ∧
      isCapturing (startRun (.ok ⟨[0]⟩) (.error JsError.abortError) initState).state
        = true := by
  decide

/-- C4 (amended): a Start failing at the permission request leaves the
entire state unchanged and the error escapes uncaught; a Start failing at
module load has already overwritten the stream reference with the newly
granted stream, whose hardware tracks remain live, though it does not
enable the stop control and logs nothing, and the error escapes
uncaught. -/
theorem start_failure_state_effects (st : ControllerState) (e : JsError)
    (s : MediaStream) (mod : Except JsError Unit) :
    startRun (.error e) mod st = ⟨st, [.raised e], some e⟩ ∧
      (startRun (.ok s) (.error e) st).err = some e ∧
      (startRun (.ok s) (.error e) st).state.stream = some s ∧
      (startRun (.ok s) (.error e) st).state.stopDisabled = st.stopDisabled ∧
      (startRun (.ok s) (.error e) st).state.messages = st.messages ∧
      ∀ id ∈ s.trackIds,
        trackLive (startRun (.ok s) (.error e) st).state.hw id = true := by
  refine ⟨rfl, rfl, rfl, rfl, rfl, ?_⟩
  intro id hid
  exact trackLive_append_live st.hw s.trackIds id hid

theorem start_failure_state_effects_witness :
    trackLive (startRun (.ok ⟨[0]⟩) (.error JsError.abortError) initState).state.hw 0
      = true :=
  (start_failure_state_effects initState JsError.abortError ⟨[0]⟩
    (.ok ())).2.2.2.2.2 0 (by decide)

/-- A live track stays live when further tracks are appended to the
registry. -/
theorem trackLive_append_left (hw l : List Track) (id : Nat)
    (h : trackLive hw id = true) : trackLive (hw ++ l) id = true := by
  simp only [trackLive, List.any_append, Bool.or_eq_true]
  exact Or.inl h

/-- C5: two consecutive successful Starts with no intervening Stop: the
second silently succeeds (no guard prevents it, no error is raised),
overwrites the shared stream reference with the new stream, and every
hardware track allocated for the first session is still live — never
stopped — afterwards. -/
theorem double_start_leaks_first_session (st : ControllerState)
    (s1 s2 : MediaStream) :
    (startRun (.ok s2) (.ok ())
        (startRun (.ok s1) (.ok ()) st).state).err = none ∧
      (startRun (.ok s2) (.ok ())
        (startRun (.ok s1) (.ok ()) st).state).state.stream = some s2 ∧
      ∀ id ∈ s1.trackIds,
        trackLive (startRun (.ok s2) (.ok ())
          (startRun (.ok s1) (.ok ()) st).state).state.hw id = true := by
  refine ⟨rfl, rfl, ?_⟩
  intro id hid
  show trackLive ((st.hw ++ s1.trackIds.map fun i => ⟨i, false⟩)
    ++ s2.trackIds.map fun i => ⟨i, false⟩) id = true
  exact trackLive_append_left _ _ _ (trackLive_append_live _ _ _ hid)

theorem double_start_leaks_first_session_witness :
    trackLive (startRun (.ok ⟨[1]⟩) (.ok ())
      (startRun (.ok ⟨[0]⟩) (.ok ()) initState).state).state.hw 0 = true :=
  (double_start_leaks_first_session initState ⟨[0]⟩ ⟨[1]⟩).2.2 0 (by decide)

/-- C7: in every run of the start handler, the permission resolution and
the module load precede the graph connection in the step trace, the stop
control is enabled and the status message logged only after the graph
connection, and a run that raised no error did connect the graph. -/
theorem start_step_ordering (gum : Except JsError MediaStream)
    (mod : Except JsError Unit) (st : ControllerState) :
    (Step.graphConnect ∈ (startRun gum mod st).trace →
        (startRun gum mod st).trace.indexOf Step.permissionResolved <
          (startRun gum mod st).trace.indexOf Step.graphConnect ∧
        (startRun gum mod st).trace.indexOf Step.moduleLoaded <
          (startRun gum mod st).trace.indexOf Step.graphConnect) ∧
      (Step.stopControlEnabled ∈ (startRun gum mod st).trace →
        (startRun gum mod st).trace.indexOf Step.graphConnect <
          (startRun gum mod st).trace.indexOf Step.stopControlEnabled) ∧
      (∀ m, Step.logMessage m ∈ (startRun gum mod st).trace →
        (startRun gum mod st).trace.indexOf Step.graphConnect <
          (startRun gum mod st).trace.indexOf (Step.logMessage m)) ∧
      ((startRun gum mod st).err = none →
        Step.graphConnect ∈ (startRun gum mod st).trace) := by
  rcases gum with e | s
  · simp [startRun]
  · rcases mod with e | u
    · simp [startRun]
    · have htr : (startRun (.ok s) (.ok u) st).trace
          = [Step.permissionResolved, Step.moduleLoaded, Step.graphConnect,
             Step.stopControlEnabled, Step.logMessage startMessage] := rfl
      have herr : (startRun (.ok s) (.ok u) st).err = none := rfl
      rw [htr, herr]
      refine ⟨fun _ => by decide, fun _ => by decide, ?_, fun _ => by decide⟩
      intro m hm
      simp only [List.mem_cons, List.not_mem_nil, or_false] at hm
      rcases hm with h | h | h | h | h
      · exact absurd h (by simp)
      · exact absurd h (by simp)
      · exact absurd h (by simp)
      · exact absurd h (by simp)
      · injection h with h
        subst h
        decide

theorem start_step_ordering_witness :
    (startRun (.ok ⟨[0]⟩) (.ok ()) initState).trace.indexOf Step.moduleLoaded <
        (startRun (.ok ⟨[0]⟩) (.ok ()) initState).trace.indexOf Step.graphConnect ∧
      (startRun (.ok ⟨[0]⟩) (.ok ()) initState).trace.indexOf Step.graphConnect <
        (startRun (.ok ⟨[0]⟩) (.ok ()) initState).trace.indexOf
          (Step.logMessage startMessage) :=
  ⟨((start_step_ordering (.ok ⟨[0]⟩) (.ok ()) initState).1 (by decide)).2,
   (start_step_ordering (.ok ⟨[0]⟩) (.ok ()) initState).2.2.1 startMessage
     (by decide)⟩

/-- C8: from the initial state, a successful Start followed by a Stop logs
exactly the start status message then the stop status message, and the
final state is Idle. -/
theorem start_stop_scenario_messages (s : MediaStream) :
    (exec initState [Op.start (.ok s) (.ok ()), Op.stop]).messages
        = [startMessage, stopMessage] ∧
      isCapturing (exec initState [Op.start (.ok s) (.ok ()), Op.stop]) = false := by
  refine ⟨rfl, ?_⟩
  exact stopRun_not_capturing (startRun (.ok s) (.ok ()) initState).state s rfl

/-- Stopping a session's tracks twice is the same as stopping them once. -/
theorem stopHw_idem (ids : List Nat) (hw : List Track) :
    stopHw ids (stopHw ids hw) = stopHw ids hw := by
  induction hw with
  | nil => rfl
  | cons t hw ih =>
    by_cases hm : t.id ∈ ids <;>
      simp only [stopHw, List.map_cons] at ih ⊢ <;> simp [hm, ih]

/-- C9: after a successful Start and a Stop, a second Stop raises no
error: the stream reference still holds the (stopped) stream, re-stopping
the already-stopped tracks leaves the hardware registry unchanged, and
the stop status message is logged a second time. -/
theorem second_stop_is_noop_restop (st : ControllerState) (s : MediaStream) :
    (stopRun (stopRun (startRun (.ok s) (.ok ()) st).state).1).2 = none ∧
      (stopRun (stopRun (startRun (.ok s) (.ok ()) st).state).1).1.hw
        = (stopRun (startRun (.ok s) (.ok ()) st).state).1.hw ∧
      (stopRun (stopRun (startRun (.ok s) (.ok ()) st).state).1).1.stream
        = some s ∧
      (stopRun (stopRun (startRun (.ok s) (.ok ()) st).state).1).1.messages
        = (stopRun (startRun (.ok s) (.ok ()) st).state).1.messages
            ++ [stopMessage] := by
  refine ⟨rfl, ?_, rfl, rfl⟩
  exact stopHw_idem s.trackIds (st.hw ++ s.trackIds.map fun i => ⟨i, false⟩)

/-- A Stop never changes the `disabled` flag of the stop control. -/
theorem stopRun_stopDisabled (st : ControllerState) :
    (stopRun st).1.stopDisabled = st.stopDisabled := by
  rcases hs : st.stream with _ | s <;> simp [stopRun, hs]

/-- No single operation disables the stop control once it is enabled. -/
theorem applyOp_stopDisabled (st : ControllerState) (op : Op)
    (h : st.stopDisabled = false) : (applyOp st op).1.stopDisabled = false := by
  rcases op with ⟨gum, mod⟩ | _
  · rcases gum with e | s
    · exact h
    · rcases mod with e | u
      · exact h
      · rfl
  · exact (stopRun_stopDisabled st).trans h

/-- C10: enabledness of the stop control is monotone — once a successful
Start has enabled it, no sequence of operations ever disables it again,
and a Stop in particular leaves the flag exactly as it was even though
the state returns to Idle. -/
theorem stop_enabled_monotone (ops : List Op) (st : ControllerState)
    (h : st.stopDisabled = false) :
    (exec st ops).stopDisabled = false ∧
      ∀ st2 : ControllerState, (stopRun st2).1.stopDisabled = st2.stopDisabled := by
  refine ⟨?_, stopRun_stopDisabled⟩
  induction ops generalizing st with
  | nil => exact h
  | cons op ops ih => exact ih _ (applyOp_stopDisabled st op h)

theorem stop_enabled_monotone_witness :
    (exec (startRun (.ok ⟨[0]⟩) (.ok ()) initState).state
        [Op.stop, Op.stop]).stopDisabled = false ∧
      ∀ st2 : ControllerState, (stopRun st2).1.stopDisabled = st2.stopDisabled :=
  stop_enabled_monotone [Op.stop, Op.stop]
    (startRun (.ok ⟨[0]⟩) (.ok ()) initState).state (by decide)

